import Mathlib

/-!
Shallow embedding of scraper.py (codeforces-scraper).

The repository is a single Python script with two html.parser.HTMLParser
subclasses:

  - ContestHTMLParser: collects problem identifiers from hyperlink targets
    matching the pattern contest/<digits>/problem/(<word>).
  - ProblemHTMLParser: a stack-based streaming tree builder that records
    the subtree rooted at a div whose class attribute contains "sample",
    then pairs up the text of pre elements into (input, output) examples.

The embedding starts at the token/event boundary of html.parser: a parse
is a fold of handler steps over a list of Token events, exactly mirroring
the handler methods of the two classes.  Strings are Lean Strings
(sequences of Unicode scalar values); attribute values are modelled as
strings (the rare valueless-attribute case, where html.parser delivers
None, is outside the model and outside every claim).  The regular
expression character classes \d and \w are modelled over ASCII, which is
what every claim exercises.

Mutation is modelled by explicit state passing.  Python's tree builder
appends the child object to the parent's children list at start-tag time
and then keeps mutating that same object through the stack alias until it
is popped.  The pure model mirrors this: at start-tag time the (empty)
child is appended to the parent's children, and at pop time the finished
child is written over the parent's last child.  This is faithful because
a parent's children list and data never change while some other node sits
above it on the stack (every intervening event touches only the stack
top), so at pop time the child is still the parent's last child.

Failures that Python raises as exceptions (IndexError on stack access,
AssertionError from assert statements, ValueError from int()/chr()) are
modelled with Except.
-/

namespace Scraper

/-- Events delivered by the html.parser tokenizer to the handler methods.
Attribute lists arrive as ordered (name, value) pairs, possibly with
duplicate names. -/
inductive Token where
  | startTag (tag : String) (attrs : List (String × String))
  | endTag (tag : String)
  | text (data : String)
  | entityRef (name : String)
  | charRef (name : String)
deriving Repr, DecidableEq

/-- Python exceptions raised by the handler code. -/
inductive PErr where
  | stackIndexError
  | strIndexError
  | assertionError (msg : String)
  | valueError
deriving Repr, DecidableEq

/-- ProblemHTMLParser.Node: tag name, attribute mapping (as built by
dict(attrs)), ordered children, accumulated text data. -/
inductive Node where
  | mk (tag : String) (attrs : List (String × String)) (children : List Node)
       (data : String)
deriving Repr

def Node.tag : Node → String
  | .mk t _ _ _ => t

def Node.attrs : Node → List (String × String)
  | .mk _ a _ _ => a

def Node.children : Node → List Node
  | .mk _ _ c _ => c

def Node.data : Node → String
  | .mk _ _ _ d => d

/-- Appending to a node's data string (self.data += s). -/
def Node.addData : Node → String → Node
  | .mk t a c d, s => .mk t a c (d ++ s)

/-- Appending a child (self.children.append(n)). -/
def Node.addChild : Node → Node → Node
  | .mk t a c d, n => .mk t a (c ++ [n]) d

/-- Writing the finished child over the parent's last child slot.  In
Python the parent's last child IS the popped object (aliasing); the pure
model re-installs it here.  On states reachable from the initial state
the children list is non-empty whenever this is called. -/
def Node.setLastChild : Node → Node → Node
  | .mk t a c d, n => .mk t a (c.dropLast ++ [n]) d

/-- One stack slot.  attach records whether the node was appended to its
parent's children at start-tag time (true for every pushed node except a
br pushed over a non-empty stack, and except the bottom node, which has
no parent). -/
structure StackEntry where
  node : Node
  attach : Bool
deriving Repr

/-- Mutable state of ProblemHTMLParser: the recording stack, the
completed sample roots (self.sample_input_nodes) and the recording flag. -/
structure PState where
  stack : List StackEntry
  sample_input_nodes : List Node
  recording : Bool
deriving Repr

/-- State built by ProblemHTMLParser.__init__. -/
def initState : PState := ⟨[], [], false⟩

/-- dict(pairs) in Python: left-to-right insertion; a repeated key keeps
its first position but takes the latest value. -/
def pyDictInsert (d : List (String × String)) (k v : String) :
    List (String × String) :=
  if d.any (fun p => p.1 == k) then
    d.map (fun p => if p.1 == k then (k, v) else p)
  else
    d ++ [(k, v)]

/-- Builds dict(attrs) from the attribute list as delivered to a handler. -/
def pyDict (l : List (String × String)) : List (String × String) :=
  l.foldl (fun d p => pyDictInsert d p.1 p.2) []

/-- d.get(k) on a dict: first (unique) matching key. -/
def dictGet (d : List (String × String)) (k : String) : Option String :=
  (d.find? (fun p => p.1 == k)).map (fun p => p.2)

/-- d.get(k, dflt). -/
def dictGetD (d : List (String × String)) (k dflt : String) : String :=
  (dictGet d k).getD dflt

/-- Substring test on char lists, modelling str.find(pat) != -1. -/
def listHasInfix : List Char → List Char → Bool
  | [], pat => pat.isEmpty
  | hay@(_ :: t), pat => pat.isPrefixOf hay || listHasInfix t pat

/-- s.find(pat) != -1 in Python. -/
def strContains (s pat : String) : Bool :=
  listHasInfix s.toList pat.toList

/-- Condition from handle_starttag line 54:
tag == 'div' and attrs.get('class', '').find('sample') != -1
(attrs here is already the dict built from the attribute list). -/
def isSampleDiv (tag : String) (attrs : List (String × String)) : Bool :=
  tag == "div" && strContains (dictGetD attrs "class" "") "sample"

/-- ProblemHTMLParser.handle_starttag (lines 52-63).  Note that in the
source the push self.stack.append(node) sits outside the inner
if self.stack block, so it runs for the br case as well. -/
def handle_starttag (st : PState) (tag : String)
    (attrsL : List (String × String)) : PState :=
  let attrs := pyDict attrsL
  if st.recording || isSampleDiv tag attrs then
    let node : Node := .mk tag attrs [] ""
    match st.stack with
    | [] =>
        { st with recording := true, stack := [⟨node, false⟩] }
    | top :: rest =>
        if tag == "br" then
          { st with recording := true,
                    stack := ⟨node, false⟩ ::
                             ⟨top.node.addData "\n", top.attach⟩ :: rest }
        else
          { st with recording := true,
                    stack := ⟨node, true⟩ ::
                             ⟨top.node.addChild node, top.attach⟩ :: rest }
  else
    st

/-- ProblemHTMLParser.handle_endtag (lines 65-70).  The tag name is not
consulted: the pop is positional. -/
def handle_endtag (st : PState) (_tag : String) : Except PErr PState :=
  if st.recording then
    match st.stack with
    | [] => .error .stackIndexError
    | e :: rest =>
        match rest with
        | [] =>
            .ok { stack := [],
                  sample_input_nodes := st.sample_input_nodes ++ [e.node],
                  recording := false }
        | p :: rest' =>
            .ok { st with
                  stack := (if e.attach then
                              ⟨p.node.setLastChild e.node, p.attach⟩
                            else p) :: rest' }
  else
    .ok st

/-- ProblemHTMLParser.handle_data (lines 72-74). -/
def handle_data (st : PState) (data : String) : Except PErr PState :=
  if st.recording then
    match st.stack with
    | [] => .error .stackIndexError
    | e :: rest =>
        .ok { st with stack := ⟨e.node.addData data, e.attach⟩ :: rest }
  else
    .ok st

/-- html.entities.name2codepoint: the fixed name-to-codepoint table used
by handle_entityref (all 252 entries of the Python table). -/
def name2codepoint : List (String × Nat) := [
  ("AElig", 198), ("Aacute", 193), ("Acirc", 194), ("Agrave", 192), ("Alpha", 913), ("Aring", 197),
  ("Atilde", 195), ("Auml", 196), ("Beta", 914), ("Ccedil", 199), ("Chi", 935), ("Dagger", 8225),
  ("Delta", 916), ("ETH", 208), ("Eacute", 201), ("Ecirc", 202), ("Egrave", 200), ("Epsilon", 917),
  ("Eta", 919), ("Euml", 203), ("Gamma", 915), ("Iacute", 205), ("Icirc", 206), ("Igrave", 204),
  ("Iota", 921), ("Iuml", 207), ("Kappa", 922), ("Lambda", 923), ("Mu", 924), ("Ntilde", 209),
  ("Nu", 925), ("OElig", 338), ("Oacute", 211), ("Ocirc", 212), ("Ograve", 210), ("Omega", 937),
  ("Omicron", 927), ("Oslash", 216), ("Otilde", 213), ("Ouml", 214), ("Phi", 934), ("Pi", 928),
  ("Prime", 8243), ("Psi", 936), ("Rho", 929), ("Scaron", 352), ("Sigma", 931), ("THORN", 222),
  ("Tau", 932), ("Theta", 920), ("Uacute", 218), ("Ucirc", 219), ("Ugrave", 217), ("Upsilon", 933),
  ("Uuml", 220), ("Xi", 926), ("Yacute", 221), ("Yuml", 376), ("Zeta", 918), ("aacute", 225),
  ("acirc", 226), ("acute", 180), ("aelig", 230), ("agrave", 224), ("alefsym", 8501), ("alpha", 945),
  ("amp", 38), ("and", 8743), ("ang", 8736), ("aring", 229), ("asymp", 8776), ("atilde", 227),
  ("auml", 228), ("bdquo", 8222), ("beta", 946), ("brvbar", 166), ("bull", 8226), ("cap", 8745),
  ("ccedil", 231), ("cedil", 184), ("cent", 162), ("chi", 967), ("circ", 710), ("clubs", 9827),
  ("cong", 8773), ("copy", 169), ("crarr", 8629), ("cup", 8746), ("curren", 164), ("dArr", 8659),
  ("dagger", 8224), ("darr", 8595), ("deg", 176), ("delta", 948), ("diams", 9830), ("divide", 247),
  ("eacute", 233), ("ecirc", 234), ("egrave", 232), ("empty", 8709), ("emsp", 8195), ("ensp", 8194),
  ("epsilon", 949), ("equiv", 8801), ("eta", 951), ("eth", 240), ("euml", 235), ("euro", 8364),
  ("exist", 8707), ("fnof", 402), ("forall", 8704), ("frac12", 189), ("frac14", 188), ("frac34", 190),
  ("frasl", 8260), ("gamma", 947), ("ge", 8805), ("gt", 62), ("hArr", 8660), ("harr", 8596),
  ("hearts", 9829), ("hellip", 8230), ("iacute", 237), ("icirc", 238), ("iexcl", 161), ("igrave", 236),
  ("image", 8465), ("infin", 8734), ("int", 8747), ("iota", 953), ("iquest", 191), ("isin", 8712),
  ("iuml", 239), ("kappa", 954), ("lArr", 8656), ("lambda", 955), ("lang", 9001), ("laquo", 171),
  ("larr", 8592), ("lceil", 8968), ("ldquo", 8220), ("le", 8804), ("lfloor", 8970), ("lowast", 8727),
  ("loz", 9674), ("lrm", 8206), ("lsaquo", 8249), ("lsquo", 8216), ("lt", 60), ("macr", 175),
  ("mdash", 8212), ("micro", 181), ("middot", 183), ("minus", 8722), ("mu", 956), ("nabla", 8711),
  ("nbsp", 160), ("ndash", 8211), ("ne", 8800), ("ni", 8715), ("not", 172), ("notin", 8713),
  ("nsub", 8836), ("ntilde", 241), ("nu", 957), ("oacute", 243), ("ocirc", 244), ("oelig", 339),
  ("ograve", 242), ("oline", 8254), ("omega", 969), ("omicron", 959), ("oplus", 8853), ("or", 8744),
  ("ordf", 170), ("ordm", 186), ("oslash", 248), ("otilde", 245), ("otimes", 8855), ("ouml", 246),
  ("para", 182), ("part", 8706), ("permil", 8240), ("perp", 8869), ("phi", 966), ("pi", 960),
  ("piv", 982), ("plusmn", 177), ("pound", 163), ("prime", 8242), ("prod", 8719), ("prop", 8733),
  ("psi", 968), ("quot", 34), ("rArr", 8658), ("radic", 8730), ("rang", 9002), ("raquo", 187),
  ("rarr", 8594), ("rceil", 8969), ("rdquo", 8221), ("real", 8476), ("reg", 174), ("rfloor", 8971),
  ("rho", 961), ("rlm", 8207), ("rsaquo", 8250), ("rsquo", 8217), ("sbquo", 8218), ("scaron", 353),
  ("sdot", 8901), ("sect", 167), ("shy", 173), ("sigma", 963), ("sigmaf", 962), ("sim", 8764),
  ("spades", 9824), ("sub", 8834), ("sube", 8838), ("sum", 8721), ("sup", 8835), ("sup1", 185),
  ("sup2", 178), ("sup3", 179), ("supe", 8839), ("szlig", 223), ("tau", 964), ("there4", 8756),
  ("theta", 952), ("thetasym", 977), ("thinsp", 8201), ("thorn", 254), ("tilde", 732), ("times", 215),
  ("trade", 8482), ("uArr", 8657), ("uacute", 250), ("uarr", 8593), ("ucirc", 251), ("ugrave", 249),
  ("uml", 168), ("upsih", 978), ("upsilon", 965), ("uuml", 252), ("weierp", 8472), ("xi", 958),
  ("yacute", 253), ("yen", 165), ("yuml", 255), ("zeta", 950), ("zwj", 8205), ("zwnj", 8204)
]

/-- html.entities.name2codepoint.get(name). -/
def entityLookup (name : String) : Option Nat :=
  (name2codepoint.find? (fun p => p.1 == name)).map (fun p => p.2)

/-- chr(n) in Python, as far as Lean Char can represent it: Unicode
scalar values map to the corresponding character; other codepoints are
modelled as ValueError (Python additionally accepts lone surrogates,
which no claim exercises and a Lean Char cannot hold). -/
def pyChr (n : Nat) : Option Char :=
  if n < 0xd800 ∨ (0xdfff < n ∧ n < 0x110000) then some (Char.ofNat n)
  else none

/-- Value of a decimal digit, for int(s). -/
def decDigitVal (c : Char) : Option Nat :=
  if '0' ≤ c ∧ c ≤ '9' then some (c.toNat - 48) else none

/-- Value of a hexadecimal digit, for int(s, 16). -/
def hexDigitVal (c : Char) : Option Nat :=
  if '0' ≤ c ∧ c ≤ '9' then some (c.toNat - 48)
  else if 'a' ≤ c ∧ c ≤ 'f' then some (c.toNat - 87)
  else if 'A' ≤ c ∧ c ≤ 'F' then some (c.toNat - 55)
  else none

/-- Horner accumulation over a digit list; none on a non-digit. -/
def parseDigitsAux (digitVal : Char → Option Nat) (base : Nat) :
    List Char → Nat → Option Nat
  | [], acc => some acc
  | c :: cs, acc =>
      match digitVal c with
      | none => none
      | some v => parseDigitsAux digitVal base cs (acc * base + v)

/-- int(s) / int(s, 16) restricted to plain digit strings, which is the
only shape html.parser delivers for numeric character references; the
empty string and any non-digit character raise ValueError (none). -/
def pyIntOfDigits (digitVal : Char → Option Nat) (base : Nat) (s : String) :
    Option Nat :=
  match s.toList with
  | [] => none
  | cs => parseDigitsAux digitVal base cs 0

/-- ProblemHTMLParser.handle_entityref (lines 76-79): look up the name in
the fixed table, assert on failure (the message reports the name), else
hand the decoded character to handle_data. -/
def handle_entityref (st : PState) (name : String) : Except PErr PState :=
  match entityLookup name with
  | none =>
      .error (.assertionError ("Unrecognized HTML entity &" ++ name ++ ";"))
  | some code =>
      match pyChr code with
      | none => .error .valueError
      | some c => handle_data st (String.mk [c])

/-- ProblemHTMLParser.handle_charref (lines 81-85): name[0] == 'x' selects
hexadecimal on name[1:], otherwise decimal on name; the numeric value
goes through chr and then handle_data.  name[0] of an empty name raises
IndexError. -/
def handle_charref (st : PState) (name : String) : Except PErr PState :=
  match name.toList with
  | [] => .error .strIndexError
  | c0 :: rest =>
      let parsed :=
        if c0 = 'x' then pyIntOfDigits hexDigitVal 16 (String.mk rest)
        else pyIntOfDigits decDigitVal 10 (String.mk (c0 :: rest))
      match parsed with
      | none => .error .valueError
      | some n =>
          match pyChr n with
          | none => .error .valueError
          | some c => handle_data st (String.mk [c])

/-- Dispatch of one tokenizer event to the matching handler method of
ProblemHTMLParser. -/
def step (st : PState) : Token → Except PErr PState
  | .startTag tag attrs => .ok (handle_starttag st tag attrs)
  | .endTag tag => handle_endtag st tag
  | .text d => handle_data st d
  | .entityRef n => handle_entityref st n
  | .charRef n => handle_charref st n

/-- parser = ProblemHTMLParser(); parser.feed(...): fold of the handlers
over the event stream. -/
def run (toks : List Token) : Except PErr PState :=
  toks.foldlM step initState

mutual
/-- ProblemHTMLParser.walkNodes (lines 87-92): collect the data of pre
nodes; a pre node is collected and its children are NOT visited. -/
def walkNodes : Node → List String
  | .mk t _ cs d => if t = "pre" then [d] else walkList cs
/-- Loop for child in node.children: self.walkNodes(child, out). -/
def walkList : List Node → List String
  | [] => []
  | n :: ns => walkNodes n ++ walkList ns
end

/-- Pairing loop of getExamples (lines 105-107): element 2k is the input,
element 2k+1 the output. -/
def pairUp : List String → List (String × String)
  | a :: b :: rest => (a, b) :: pairUp rest
  | _ => []

/-- ProblemHTMLParser.getExamples (lines 94-108); the two assert
statements become assertionError values. -/
def getExamples (st : PState) : Except PErr (List (String × String)) :=
  match st.sample_input_nodes with
  | [] => .ok []
  | [root] =>
      let pre_datas := walkNodes root
      if pre_datas.length % 2 = 0 then .ok (pairUp pre_datas)
      else .error (.assertionError "len(pre_datas) % 2 == 0")
  | _ => .error (.assertionError "len(self.sample_input_nodes) == 1")

/-- Feeding a whole event stream and then harvesting the examples. -/
def runExamples (toks : List Token) : Except PErr (List (String × String)) :=
  match run toks with
  | .error e => .error e
  | .ok st => getExamples st

mutual
/-- Modelled from the spec, for comparison in C1: a depth-first pre-order
walk collecting the text data of EVERY node whose tag is pre, including
pre nodes nested inside other pre nodes. -/
def specPreWalk : Node → List String
  | .mk t _ cs d => (if t = "pre" then [d] else []) ++ specPreWalkList cs
/-- Walk of a child list, in order. -/
def specPreWalkList : List Node → List String
  | [] => []
  | n :: ns => specPreWalk n ++ specPreWalkList ns
end

/-- Character class \d of the link pattern (ASCII, which is what every
claim exercises). -/
def isDigitChar (c : Char) : Bool :=
  decide ('0' ≤ c ∧ c ≤ '9')

/-- Character class \w of the link pattern (ASCII letters, digits and
underscore). -/
def isWordChar (c : Char) : Bool :=
  c.isAlphanum || c == '_'

/-- Consuming an exact literal piece of the pattern. -/
def dropLit : List Char → List Char → Option (List Char)
  | [], cs => some cs
  | _ :: _, [] => none
  | p :: ps, c :: cs => if c == p then dropLit ps cs else none

/-- Greedy one-or-more character-class match.  In the link pattern each
repeated class is followed either by a literal character the class cannot
match (the / after \d+) or by nothing (the trailing \w+), so greedy
matching without backtracking has exactly the regex semantics. -/
def takeClass1 (p : Char → Bool) (cs : List Char) :
    Option (List Char × List Char) :=
  let taken := cs.takeWhile p
  if taken.isEmpty then none else some (taken, cs.drop taken.length)

/-- Matching re.compile(LinkPattern) at the start of cs, where
LinkPattern is contest/<digits>/problem/(<word>); returns group 1. -/
def matchLinkAt (cs : List Char) : Option String :=
  match dropLit "contest/".toList cs with
  | none => none
  | some cs1 =>
      match takeClass1 isDigitChar cs1 with
      | none => none
      | some (_, cs2) =>
          match dropLit "/problem/".toList cs2 with
          | none => none
          | some cs3 =>
              match takeClass1 isWordChar cs3 with
              | none => none
              | some (w, _) => some (String.mk w)

/-- re.search of the link pattern: the match at the leftmost position
where one exists.  The pattern cannot match the empty suffix. -/
def searchLink : List Char → Option String
  | [] => none
  | cs@(_ :: rest) =>
      match matchLinkAt cs with
      | some r => some r
      | none => searchLink rest

/-- self.problems.add(x): the set is modelled as a duplicate-free list. -/
def setAdd (problems : List String) (x : String) : List String :=
  if x ∈ problems then problems else x :: problems

/-- ContestHTMLParser.handle_starttag (lines 20-32): only a tags are
considered; the href value comes from dict(attrs).get; a missing or empty
href (if not href) is skipped; the pattern is applied with re.search and
group 1 of a match joins the problems set.  Every other event is ignored. -/
def contestStep (problems : List String) : Token → List String
  | .startTag tag attrsL =>
      if tag = "a" then
        match dictGet (pyDict attrsL) "href" with
        | none => problems
        | some href =>
            if href = "" then problems
            else
              match searchLink href.toList with
              | none => problems
              | some idCap => setAdd problems idCap
      else problems
  | _ => problems

/-- parser = ContestHTMLParser(); parser.feed(...): the problems set
after the whole stream. -/
def contestRun (toks : List Token) : List String :=
  toks.foldl contestStep []

/-- ContestHTMLParser.getProblems (lines 34-35): sorted(list(problems)). -/
def getProblems (toks : List Token) : List String :=
  List.insertionSort (fun a b => a ≤ b) (contestRun toks)

/-- Outcome of one download_problem worker. -/
inductive TaskOutcome where
  | done (examplesWritten : Nat)
  | failed (e : PErr)
deriving Repr, DecidableEq

/-- Modelled from the source glue (lines 170-172): every problem is
submitted to the ThreadPoolExecutor and the with-block joins all workers,
so each task runs to its own outcome independently (first component); but
the Future objects returned by submit are discarded, no outcome is ever
inspected or reported, and the interpreter exits with status 0 (second
component) no matter which tasks failed. -/
def fanOut (outcomes : List TaskOutcome) : List TaskOutcome × Nat :=
  (outcomes, 0)

/-- Spec-side vocabulary for C5: the event is a start tag for an a
element whose href attribute value (missing and empty values are
skipped by the code) contains a match of the link pattern capturing
idCap. -/
def tokenYields (t : Token) (idCap : String) : Prop :=
  ∃ attrsL href, t = Token.startTag "a" attrsL ∧
    dictGet (pyDict attrsL) "href" = some href ∧ href ≠ "" ∧
    searchLink href.toList = some idCap

/-- Spec-side description for C10: the value of the LAST occurrence of
key k in the raw attribute list. -/
def lastVal (l : List (String × String)) (k : String) : Option String :=
  (l.reverse.find? (fun p => p.1 == k)).map (fun p => p.2)

/-- Event stream of the markup named in C1:
div class="sample-tests" (div class="sample-test" (pre 3\n1 2 3) (pre 6)). -/
def toksSampleTests : List Token :=
  [.startTag "div" [("class", "sample-tests")],
   .startTag "div" [("class", "sample-test")],
   .startTag "pre" [], .text "3\n1 2 3", .endTag "pre",
   .startTag "pre" [], .text "6", .endTag "pre",
   .endTag "div", .endTag "div"]

/-- Event stream with a pre element nested inside another pre element,
all inside one sample container: div class="sample-tests"
(pre a (pre b)) (pre c). -/
def toksNestedPre : List Token :=
  [.startTag "div" [("class", "sample-tests")],
   .startTag "pre" [], .text "a",
   .startTag "pre" [], .text "b", .endTag "pre",
   .endTag "pre",
   .startTag "pre" [], .text "c", .endTag "pre",
   .endTag "div"]

/-- The single completed root produced by feeding toksNestedPre. -/
def nestedRoot : Node :=
  .mk "div" [("class", "sample-tests")]
    [.mk "pre" [] [.mk "pre" [] [] "b"] "a",
     .mk "pre" [] [] "c"] ""

/-- The single completed root produced by feeding toksSampleTests. -/
def sampleRoot : Node :=
  .mk "div" [("class", "sample-tests")]
    [.mk "div" [("class", "sample-test")]
      [.mk "pre" [] [] "3\n1 2 3", .mk "pre" [] [] "6"] ""] ""

/-- A mid-parse state for C2: recording, with one open sample div on the
stack. -/
def stWithDiv : PState :=
  ⟨[⟨.mk "div" [("class", "sample-tests")] [] "", false⟩], [], true⟩

/-- A mid-parse state for C4: recording, with exactly one open node. -/
def stOneEntry : PState :=
  ⟨[⟨.mk "div" [("class", "sample-test")] [] "d", false⟩], [], true⟩

/-- A post-parse state for C3 with two completed roots. -/
def stTwoRoots : PState :=
  ⟨[], [.mk "div" [("class", "sample-test")] [] "",
        .mk "div" [("class", "sample-test")] [] ""], false⟩

/-- A post-parse state for C3 with one root holding three pre blocks. -/
def stOddPre : PState :=
  ⟨[], [.mk "div" [("class", "sample-test")]
          [.mk "pre" [] [] "x", .mk "pre" [] [] "y", .mk "pre" [] [] "z"]
          ""], false⟩

/-- Contest-page event stream for C5's witness: the same problem link
twice plus one other link. -/
def toksContest : List Token :=
  [.startTag "a" [("href", "contest/10/problem/B")],
   .startTag "a" [("href", "contest/10/problem/B")],
   .startTag "a" [("href", "contest/10/problem/A2")]]

/-- C6: entity and character-reference decoding round-trips to literal
characters: the amp and lt entities become the characters they name via
the fixed table, and the 65 and x41 character references both decode to
the letter A (decimal, and hexadecimal signalled by a leading x), in
every parser state. -/
theorem claimC6 (st : PState) :
    handle_entityref st "amp" = handle_data st "&" ∧
    handle_entityref st "lt" = handle_data st "<" ∧
    handle_charref st "65" = handle_data st "A" ∧
    handle_charref st "x41" = handle_data st "A" :=
  ⟨rfl, rfl, rfl, rfl⟩

/-- C7: an entity reference whose name is not in the fixed
name-to-codepoint table fails fatally with an assertion error whose
message reports the entity name; it is never dropped or rendered as
other text. -/
theorem claimC7 (st : PState) (name : String)
    (h : entityLookup name = none) :
    handle_entityref st name =
      .error (.assertionError ("Unrecognized HTML entity &" ++ name ++ ";")) := by
  unfold handle_entityref
  rw [h]

/-- Witness for C7 at the concrete unknown entity name qqq. -/
theorem claimC7_witness :
    entityLookup "qqq" = none ∧
    handle_entityref initState "qqq" =
      .error (.assertionError "Unrecognized HTML entity &qqq;") :=
  ⟨rfl, claimC7 initState "qqq" rfl⟩

/-- C2 counterexample: the claim says a br start tag over a non-empty
stack pushes nothing, but handle_starttag pushes the br node (the push
sits outside the inner if in the source), so the stack grows from one
entry to two. -/
theorem claimC2_counterexample :
    ¬ (handle_starttag stWithDiv "br" []).stack.length
        = stWithDiv.stack.length := by
  decide

/-- C2 (amended): while recording with a non-empty stack, a br start tag
appends a newline to the stack-top node's text data and attaches no
child, but the new br node IS pushed onto the stack; for any other tag
the new node is attached as the last child of the stack top and pushed. -/
theorem claimC2_thm (st : PState) (attrsL : List (String × String))
    (top : StackEntry) (rest : List StackEntry)
    (hrec : st.recording = true) (hstk : st.stack = top :: rest) :
    handle_starttag st "br" attrsL =
      { st with recording := true,
                stack := ⟨.mk "br" (pyDict attrsL) [] "", false⟩ ::
                         ⟨top.node.addData "\n", top.attach⟩ :: rest } ∧
    ∀ tag, tag ≠ "br" →
      handle_starttag st tag attrsL =
        { st with recording := true,
                  stack := ⟨.mk tag (pyDict attrsL) [] "", true⟩ ::
                           ⟨top.node.addChild (.mk tag (pyDict attrsL) [] ""),
                            top.attach⟩ :: rest } := by
  constructor
  · simp [handle_starttag, hrec, hstk]
  · intro tag htag
    simp [handle_starttag, hrec, hstk, htag]

/-- Witness for C2 at a concrete recording state with one open div. -/
theorem claimC2_witness :
    handle_starttag stWithDiv "br" [] =
      { stWithDiv with
          recording := true,
          stack := [⟨.mk "br" [] [] "", false⟩,
                    ⟨.mk "div" [("class", "sample-tests")] [] "\n", false⟩] } :=
  (claimC2_thm stWithDiv []
    ⟨.mk "div" [("class", "sample-tests")] [] "", false⟩ [] rfl rfl).1

/-- C4: handle_endtag ignores the tag name entirely; while recording it
pops the stack top, and when the pop empties the stack the popped node
joins sample_input_nodes and recording becomes false; while not
recording an end tag has no effect. -/
theorem claimC4 (st : PState) (tag tagOther : String) :
    handle_endtag st tag = handle_endtag st tagOther ∧
    (st.recording = false → handle_endtag st tag = .ok st) ∧
    (st.recording = true → ∀ e, st.stack = [e] →
        handle_endtag st tag =
          .ok ⟨[], st.sample_input_nodes ++ [e.node], false⟩) ∧
    (st.recording = true → ∀ e p rest, st.stack = e :: p :: rest →
        handle_endtag st tag =
          .ok { st with stack :=
                  (if e.attach then ⟨p.node.setLastChild e.node, p.attach⟩
                   else p) :: rest }) := by
  refine ⟨rfl, ?_, ?_, ?_⟩
  · intro h
    simp [handle_endtag, h]
  · intro h e hs
    simp [handle_endtag, h, hs]
  · intro h e p rest hs
    simp [handle_endtag, h, hs]

/-- Witness for C4: a span end tag pops the open div (name-blind pop),
empties the stack, completes the root and stops recording. -/
theorem claimC4_witness :
    handle_endtag stOneEntry "span" =
      .ok ⟨[], [.mk "div" [("class", "sample-test")] [] "d"], false⟩ :=
  (claimC4 stOneEntry "span" "div").2.2.1 rfl
    ⟨.mk "div" [("class", "sample-test")] [] "d", false⟩ rfl

/-- C8 evidence: the fan-out discards every task outcome; even with a
failed task among the outcomes the process exit status is 0, while the
sibling tasks' outcomes are still produced. -/
theorem claimC8_evidence :
    fanOut [TaskOutcome.done 2,
            TaskOutcome.failed (PErr.assertionError "len(pre_datas) % 2 == 0")] =
      ([TaskOutcome.done 2,
        TaskOutcome.failed (PErr.assertionError "len(pre_datas) % 2 == 0")],
       0) :=
  rfl

/-- Helper for C1: pairUp puts element 2k and element 2k+1 of the
collected sequence into pair k, in order. -/
theorem pairUp_get (l : List String) (k : Nat) (a b : String)
    (ha : l.get? (2 * k) = some a) (hb : l.get? (2 * k + 1) = some b) :
    (pairUp l).get? k = some (a, b) := by
  induction l using pairUp.induct generalizing k with
  | case1 x y rest ih =>
    match k with
    | 0 =>
      simp at ha hb
      simp [pairUp, ha, hb]
    | k + 1 =>
      have h2 : 2 * (k + 1) = 2 * k + 2 := by ring
      rw [h2] at ha hb
      simp only [List.get?] at ha hb
      simpa [pairUp] using ih k ha hb
  | case2 l h =>
    match l, k with
    | [], k => simp at ha
    | [x], 0 => simp at hb
    | [x], k + 1 =>
      have h2 : 2 * (k + 1) = 2 * k + 2 := by ring
      rw [h2] at ha
      simp [List.get?] at ha
    | x :: y :: r, k => exact absurd rfl (h x y r)

/-- C1 counterexample: on a sample region holding a pre nested inside
another pre, the walk the claim describes (collect EVERY pre node) yields
the three texts a, b, c, whereas getExamples pairs only the outermost pre
texts a, c — it returns (a, c), not the consecutive pairs of the claimed
sequence. -/
theorem claimC1_counterexample :
    run toksNestedPre = .ok ⟨[], [nestedRoot], false⟩ ∧
    specPreWalk nestedRoot = ["a", "b", "c"] ∧
    walkNodes nestedRoot = ["a", "c"] ∧
    runExamples toksNestedPre = .ok [("a", "c")] ∧
    runExamples toksNestedPre ≠ .ok (pairUp (specPreWalk nestedRoot)) := by
  refine ⟨rfl, rfl, rfl, rfl, ?_⟩
  intro h
  have h0 : (Except.ok [("a", "c")] : Except PErr (List (String × String))) =
      .ok [("a", "b")] := h
  have h1 : ([("a", "c")] : List (String × String)) = [("a", "b")] := by
    injection h0
  exact absurd h1 (by decide)

/-- C1 (amended): getExamples returns the empty list when no completed
sample root exists; given exactly one root it collects, in depth-first
pre-order, the text data of every OUTERMOST pre node (it does not descend
into a pre node's children) and, when their count is even, returns the
consecutive pairs of that sequence with element 2k as input and element
2k+1 as output; on the markup named in the claim it returns exactly one
example (3\n1 2 3, 6). -/
theorem claimC1_thm (st : PState) :
    (st.sample_input_nodes = [] → getExamples st = .ok []) ∧
    (∀ root, st.sample_input_nodes = [root] →
        (walkNodes root).length % 2 = 0 →
        getExamples st = .ok (pairUp (walkNodes root))) ∧
    (∀ l k a b, l.get? (2 * k) = some a → l.get? (2 * k + 1) = some b →
        (pairUp l).get? k = some (a, b)) ∧
    runExamples toksSampleTests = .ok [("3\n1 2 3", "6")] := by
  refine ⟨?_, ?_, fun l k a b ha hb => pairUp_get l k a b ha hb, rfl⟩
  · intro h
    simp [getExamples, h]
  · intro root hr hev
    simp [getExamples, hr, hev]

/-- Witness for C1 at the state reached from the markup of the claim. -/
theorem claimC1_witness :
    getExamples ⟨[], [sampleRoot], false⟩ = .ok [("3\n1 2 3", "6")] ∧
    (pairUp ["i0", "o0", "i1", "o1"]).get? 1 = some ("i1", "o1") :=
  ⟨(claimC1_thm ⟨[], [sampleRoot], false⟩).2.1 sampleRoot rfl rfl,
   (claimC1_thm initState).2.2.1 ["i0", "o0", "i1", "o1"] 1 "i1" "o1" rfl rfl⟩

/-- C3: getExamples fails (with an assertion error, Python
AssertionError) if and only if more than one completed sample root
exists, or the single root's collected pre texts number odd; and every
error it returns is such an assertion error, so blocks are never
silently mis-paired. -/
theorem claimC3 (st : PState) :
    ((∃ m, getExamples st = .error (.assertionError m)) ↔
       (2 ≤ st.sample_input_nodes.length ∨
        ∃ root, st.sample_input_nodes = [root] ∧
          (walkNodes root).length % 2 = 1)) ∧
    (∀ e, getExamples st = .error e → ∃ m, e = .assertionError m) := by
  obtain ⟨stk, roots, rec⟩ := st
  rcases roots with _ | ⟨r, _ | ⟨r2, rs⟩⟩
  · simp [getExamples]
  · by_cases hpar : (walkNodes r).length % 2 = 0
    · constructor
      · simp [getExamples, hpar]
      · simp [getExamples, hpar]
    · constructor
      · simp [getExamples, hpar]
        omega
      · simp [getExamples, hpar]
  · constructor
    · simp [getExamples]
    · simp [getExamples]

/-- Witness for C3 at two concrete states: two completed roots, and one
root holding three pre blocks. -/
theorem claimC3_witness :
    (∃ m, getExamples stTwoRoots = .error (.assertionError m)) ∧
    (∃ m, getExamples stOddPre = .error (.assertionError m)) :=
  ⟨(claimC3 stTwoRoots).1.mpr (Or.inl (by decide)),
   (claimC3 stOddPre).1.mpr
     (Or.inr ⟨.mk "div" [("class", "sample-test")]
        [.mk "pre" [] [] "x", .mk "pre" [] [] "y", .mk "pre" [] [] "z"] "",
      rfl, by decide⟩)⟩

/-- Helper for C9: handle_data preserves the recording-implies-non-empty
invariant and cannot hit the empty stack under it. -/
theorem handle_data_inv (st : PState) (s : String)
    (h : st.recording = true → st.stack ≠ []) :
    handle_data st s ≠ .error .stackIndexError ∧
    ∀ st', handle_data st s = .ok st' →
      (st'.recording = true → st'.stack ≠ []) := by
  cases hb : st.recording
  · constructor
    · simp [handle_data, hb]
    · intro st' h'
      simp [handle_data, hb] at h'
      subst h'
      simp [hb]
  · rcases hstk : st.stack with _ | ⟨e, rest⟩
    · exact absurd hstk (h hb)
    · constructor
      · simp [handle_data, hb, hstk]
      · intro st' h'
        simp [handle_data, hb, hstk] at h'
        subst h'
        simp

/-- Helper for C9: handle_entityref preserves the invariant. -/
theorem handle_entityref_inv (st : PState) (n : String)
    (h : st.recording = true → st.stack ≠ []) :
    handle_entityref st n ≠ .error .stackIndexError ∧
    ∀ st', handle_entityref st n = .ok st' →
      (st'.recording = true → st'.stack ≠ []) := by
  unfold handle_entityref
  cases he : entityLookup n with
  | none => simp [he]
  | some code =>
      simp only [he]
      cases hc : pyChr code with
      | none => simp [hc]
      | some c =>
          simp only [hc]
          exact handle_data_inv st (String.mk [c]) h

/-- Helper for C9: handle_charref preserves the invariant. -/
theorem handle_charref_inv (st : PState) (n : String)
    (h : st.recording = true → st.stack ≠ []) :
    handle_charref st n ≠ .error .stackIndexError ∧
    ∀ st', handle_charref st n = .ok st' →
      (st'.recording = true → st'.stack ≠ []) := by
  unfold handle_charref
  cases n.toList with
  | nil => simp
  | cons c0 rest =>
      simp only []
      cases hp : (if c0 = 'x' then pyIntOfDigits hexDigitVal 16 (String.mk rest)
                  else pyIntOfDigits decDigitVal 10 (String.mk (c0 :: rest))) with
      | none => simp [hp]
      | some nv =>
          simp only [hp]
          cases hc : pyChr nv with
          | none => simp [hc]
          | some c =>
              simp only [hc]
              exact handle_data_inv st (String.mk [c]) h

/-- Helper for C9: handle_starttag re-establishes the invariant (when it
records it always pushes, so the stack is non-empty). -/
theorem handle_starttag_inv (st : PState) (tag : String)
    (attrsL : List (String × String))
    (h : st.recording = true → st.stack ≠ []) :
    (handle_starttag st tag attrsL).recording = true →
      (handle_starttag st tag attrsL).stack ≠ [] := by
  by_cases hc : (st.recording || isSampleDiv tag (pyDict attrsL)) = true
  · rcases hstk : st.stack with _ | ⟨top, rest⟩
    · simp [handle_starttag, hc, hstk]
    · by_cases hbr : (tag == "br") = true
      · simp [handle_starttag, hc, hstk, hbr]
      · simp [handle_starttag, hc, hstk, hbr]
  · simp only [handle_starttag]
    rw [if_neg hc]
    exact h

/-- Helper for C9: handle_endtag preserves the invariant and cannot pop
an empty stack under it (recording implies a non-empty stack, and when
the pop empties the stack recording is switched off). -/
theorem handle_endtag_inv (st : PState) (tag : String)
    (h : st.recording = true → st.stack ≠ []) :
    handle_endtag st tag ≠ .error .stackIndexError ∧
    ∀ st', handle_endtag st tag = .ok st' →
      (st'.recording = true → st'.stack ≠ []) := by
  cases hb : st.recording
  · constructor
    · simp [handle_endtag, hb]
    · intro st' h'
      simp [handle_endtag, hb] at h'
      subst h'
      simp [hb]
  · rcases hstk : st.stack with _ | ⟨e, _ | ⟨p, rest⟩⟩
    · exact absurd hstk (h hb)
    · constructor
      · simp [handle_endtag, hb, hstk]
      · intro st' h'
        simp [handle_endtag, hb, hstk] at h'
        subst h'
        simp
    · constructor
      · simp [handle_endtag, hb, hstk]
      · intro st' h'
        simp [handle_endtag, hb, hstk] at h'
        subst h'
        simp

/-- Helper for C9: every single event step preserves the invariant and
never faults on stack access under it. -/
theorem step_inv (st : PState) (t : Token)
    (h : st.recording = true → st.stack ≠ []) :
    step st t ≠ .error .stackIndexError ∧
    ∀ st', step st t = .ok st' →
      (st'.recording = true → st'.stack ≠ []) := by
  cases t with
  | startTag tag attrsL =>
      constructor
      · simp [step]
      · intro st' h'
        simp [step] at h'
        subst h'
        exact handle_starttag_inv st tag attrsL h
  | endTag tag => exact handle_endtag_inv st tag h
  | text d => exact handle_data_inv st d h
  | entityRef n => exact handle_entityref_inv st n h
  | charRef n => exact handle_charref_inv st n h

/-- Helper for C9: the invariant carries through a whole fold of steps. -/
theorem runFrom_inv (toks : List Token) (st : PState)
    (h : st.recording = true → st.stack ≠ []) :
    List.foldlM step st toks ≠ .error .stackIndexError ∧
    ∀ st', List.foldlM step st toks = .ok st' →
      (st'.recording = true → st'.stack ≠ []) := by
  induction toks generalizing st with
  | nil =>
      constructor
      · intro habs
        exact Except.noConfusion habs
      · intro st' h'
        have hst : st = st' := Except.ok.inj h'
        subst hst
        exact h
  | cons t ts ih =>
      have hstep := step_inv st t h
      rcases hs : step st t with e | st1
      · have he : e ≠ PErr.stackIndexError := by
          intro habs
          apply hstep.1
          rw [hs, habs]
        rw [List.foldlM_cons, hs]
        constructor
        · intro habs
          simp only [bind, Except.bind] at habs
          exact he (Except.error.inj habs)
        · intro st' habs
          simp only [bind, Except.bind] at habs
          exact Except.noConfusion habs
      · rw [List.foldlM_cons, hs]
        exact ih st1 (hstep.2 st1 hs)

/-- C9: on every token sequence processed from the initial state, a
reached state that is recording has a non-empty stack, and the whole run
can never fault on a stack access (stack[-1] or pop of an empty stack). -/
theorem claimC9 (toks : List Token) :
    run toks ≠ .error .stackIndexError ∧
    ∀ st', run toks = .ok st' →
      (st'.recording = true → st'.stack ≠ []) :=
  runFrom_inv toks initState (fun hrec => absurd hrec (by simp [initState]))

/-- Witness for C9 at a concrete one-event stream that starts recording. -/
theorem claimC9_witness :
    run [Token.startTag "div" [("class", "sample")]] ≠ .error .stackIndexError ∧
    (⟨[⟨.mk "div" [("class", "sample")] [] "", false⟩], [], true⟩ : PState).stack ≠ [] :=
  ⟨(claimC9 [Token.startTag "div" [("class", "sample")]]).1,
   (claimC9 [Token.startTag "div" [("class", "sample")]]).2
     ⟨[⟨.mk "div" [("class", "sample")] [] "", false⟩], [], true⟩ rfl rfl⟩

/-- Helper for C5: tokenYields at a start tag for an a element, without
the token-equality indirection. -/
theorem tokenYields_startTag_a (attrsL : List (String × String)) (x : String) :
    tokenYields (Token.startTag "a" attrsL) x ↔
      ∃ href, dictGet (pyDict attrsL) "href" = some href ∧ href ≠ "" ∧
        searchLink href.toList = some x := by
  unfold tokenYields
  constructor
  · rintro ⟨attrsL', href, heq, h1, h2, h3⟩
    injection heq with ha hb
    subst hb
    exact ⟨href, h1, h2, h3⟩
  · rintro ⟨href, h1, h2, h3⟩
    exact ⟨attrsL, href, rfl, h1, h2, h3⟩

/-- Helper for C5: when the href lookup and search are fixed, yielding is
exactly yielding that capture. -/
theorem tokenYields_iff_of_some (attrsL : List (String × String))
    (href idc : String) (hh : dictGet (pyDict attrsL) "href" = some href)
    (he : href ≠ "") (hs : searchLink href.toList = some idc) (x : String) :
    tokenYields (Token.startTag "a" attrsL) x ↔ x = idc := by
  rw [tokenYields_startTag_a]
  constructor
  · rintro ⟨href', h1, h2, h3⟩
    rw [hh] at h1
    have hhe : href = href' := Option.some.inj h1
    subst hhe
    rw [hs] at h3
    exact (Option.some.inj h3).symm
  · intro hx
    subst hx
    exact ⟨href, hh, he, hs⟩

/-- Helper for C5: one step of the link extractor adds exactly the
identifiers the token yields. -/
theorem contestStep_mem (acc : List String) (t : Token) (x : String) :
    x ∈ contestStep acc t ↔ x ∈ acc ∨ tokenYields t x := by
  cases t with
  | startTag tag attrsL =>
      by_cases htag : tag = "a"
      · subst htag
        simp only [contestStep, if_pos rfl]
        cases hh : dictGet (pyDict attrsL) "href" with
        | none =>
            have hy : ¬ tokenYields (Token.startTag "a" attrsL) x := by
              rw [tokenYields_startTag_a]
              rintro ⟨href, h1, -, -⟩
              rw [hh] at h1
              exact Option.noConfusion h1
            simp [hy]
        | some href =>
            simp only []
            by_cases he : href = ""
            · rw [if_pos he]
              subst he
              have hy : ¬ tokenYields (Token.startTag "a" attrsL) x := by
                rw [tokenYields_startTag_a]
                rintro ⟨href', h1, h2, -⟩
                rw [hh] at h1
                exact h2 (Option.some.inj h1).symm
              simp [hy]
            · rw [if_neg he]
              cases hs : searchLink href.toList with
              | none =>
                  have hy : ¬ tokenYields (Token.startTag "a" attrsL) x := by
                    rw [tokenYields_startTag_a]
                    rintro ⟨href', h1, -, h3⟩
                    rw [hh] at h1
                    have hhe : href = href' := Option.some.inj h1
                    subst hhe
                    rw [hs] at h3
                    exact Option.noConfusion h3
                  simp [hy]
              | some idc =>
                  rw [tokenYields_iff_of_some attrsL href idc hh he hs x]
                  simp only [setAdd]
                  by_cases hmem : idc ∈ acc
                  · simp only [if_pos hmem, if_pos trivial]
                    constructor
                    · exact fun hx => Or.inl hx
                    · rintro (hx | rfl)
                      · exact hx
                      · exact hmem
                  · simp only [if_neg hmem, if_pos trivial, List.mem_cons]
                    tauto
      · have hy : ¬ tokenYields (Token.startTag tag attrsL) x := by
          rintro ⟨attrsL', href, heq, -⟩
          injection heq with ha hb
          exact htag ha
        simp [contestStep, htag, hy]
  | endTag tag =>
      have hy : ¬ tokenYields (Token.endTag tag) x := by
        rintro ⟨attrsL', href, heq, -⟩
        exact Token.noConfusion heq
      simp [contestStep, hy]
  | text d =>
      have hy : ¬ tokenYields (Token.text d) x := by
        rintro ⟨attrsL', href, heq, -⟩
        exact Token.noConfusion heq
      simp [contestStep, hy]
  | entityRef n =>
      have hy : ¬ tokenYields (Token.entityRef n) x := by
        rintro ⟨attrsL', href, heq, -⟩
        exact Token.noConfusion heq
      simp [contestStep, hy]
  | charRef n =>
      have hy : ¬ tokenYields (Token.charRef n) x := by
        rintro ⟨attrsL', href, heq, -⟩
        exact Token.noConfusion heq
      simp [contestStep, hy]

/-- Helper for C5: membership in the folded problems set. -/
theorem foldl_contest_mem (toks : List Token) (acc : List String) (x : String) :
    x ∈ toks.foldl contestStep acc ↔ x ∈ acc ∨ ∃ t ∈ toks, tokenYields t x := by
  induction toks generalizing acc with
  | nil => simp
  | cons t ts ih =>
      rw [List.foldl_cons, ih, contestStep_mem, List.exists_mem_cons_iff]
      tauto

/-- Helper for C5: set insertion keeps the list duplicate-free. -/
theorem setAdd_nodup (acc : List String) (x : String) (h : acc.Nodup) :
    (setAdd acc x).Nodup := by
  by_cases hmem : x ∈ acc
  · simpa [setAdd, hmem] using h
  · simp [setAdd, hmem, List.nodup_cons, h]

/-- Helper for C5: each extractor step keeps the list duplicate-free. -/
theorem contestStep_nodup (acc : List String) (t : Token) (h : acc.Nodup) :
    (contestStep acc t).Nodup := by
  cases t with
  | startTag tag attrsL =>
      by_cases htag : tag = "a"
      · subst htag
        simp only [contestStep, if_pos rfl]
        cases hh : dictGet (pyDict attrsL) "href" with
        | none => exact h
        | some href =>
            simp only []
            by_cases he : href = ""
            · rw [if_pos he]
              exact h
            · rw [if_neg he]
              cases searchLink href.toList with
              | none => exact h
              | some idc => exact setAdd_nodup acc idc h
      · simp only [contestStep, if_neg htag]
        exact h
  | endTag tag => exact h
  | text d => exact h
  | entityRef n => exact h
  | charRef n => exact h

/-- Helper for C5: the folded problems set is duplicate-free. -/
theorem foldl_contest_nodup (toks : List Token) (acc : List String)
    (h : acc.Nodup) : (toks.foldl contestStep acc).Nodup := by
  induction toks generalizing acc with
  | nil => exact h
  | cons t ts ih => exact ih _ (contestStep_nodup acc t h)

/-- C5: over any token stream the link extractor output is strictly
ascending (sorted with no duplicates), and an identifier appears in it
exactly when some start tag for an a element carries an href whose value
contains a match of contest/<digits>/problem/<word> capturing it —
however often such hrefs repeat. -/
theorem claimC5 (toks : List Token) :
    (getProblems toks).Sorted (fun a b => a < b) ∧
    ∀ idCap, idCap ∈ getProblems toks ↔ ∃ t ∈ toks, tokenYields t idCap := by
  constructor
  · have hs := List.sorted_insertionSort (fun a b : String => a ≤ b)
      (contestRun toks)
    have hnd : (contestRun toks).Nodup :=
      foldl_contest_nodup toks [] List.nodup_nil
    have hnd' : (List.insertionSort (fun a b : String => a ≤ b)
        (contestRun toks)).Nodup :=
      (List.perm_insertionSort _ _).symm.nodup hnd
    exact hs.lt_of_le hnd'
  · intro idCap
    rw [getProblems, (List.perm_insertionSort _ _).mem_iff, contestRun,
      foldl_contest_mem]
    simp

/-- Witness for C5: on a concrete page with a duplicated link, problem B
is extracted. -/
theorem claimC5_witness :
    "B" ∈ getProblems toksContest :=
  ((claimC5 toksContest).2 "B").mpr
    ⟨Token.startTag "a" [("href", "contest/10/problem/B")],
     by simp [toksContest],
     ⟨[("href", "contest/10/problem/B")], "contest/10/problem/B",
      rfl, rfl, by decide, rfl⟩⟩

/-- Helper for C10: replacing the value at one key leaves lookups of
other keys unchanged. -/
theorem find?_map_ne (d : List (String × String)) (k' v' k : String)
    (h : k' ≠ k) :
    List.find? (fun p => p.1 == k)
        (List.map (fun p => if p.1 == k' then (k', v') else p) d)
      = List.find? (fun p => p.1 == k) d := by
  induction d with
  | nil => rfl
  | cons q qs ih =>
      rw [List.map_cons]
      by_cases hq : q.1 = k'
      · rw [if_pos (by simp [hq])]
        rw [List.find?_cons_of_neg _ (by simp [h]),
            List.find?_cons_of_neg _ (by simp [hq, h])]
        exact ih
      · rw [if_neg (by simp [hq])]
        by_cases hqk : q.1 = k
        · rw [List.find?_cons_of_pos _ (by simp [hqk]),
              List.find?_cons_of_pos _ (by simp [hqk])]
        · rw [List.find?_cons_of_neg _ (by simp [hqk]),
              List.find?_cons_of_neg _ (by simp [hqk])]
          exact ih

/-- Helper for C10: after the replacement the key's lookup returns the
new value (when the key occurs). -/
theorem find?_map_eq (d : List (String × String)) (k' v' : String)
    (hany : d.any (fun p => p.1 == k') = true) :
    List.find? (fun p => p.1 == k')
        (List.map (fun p => if p.1 == k' then (k', v') else p) d)
      = some (k', v') := by
  induction d with
  | nil => simp at hany
  | cons q qs ih =>
      rw [List.map_cons]
      by_cases hq : q.1 = k'
      · rw [if_pos (by simp [hq])]
        rw [List.find?_cons_of_pos _ (by simp)]
      · rw [if_neg (by simp [hq])]
        rw [List.find?_cons_of_neg _ (by simp [hq])]
        apply ih
        simp only [List.any_cons] at hany
        rcases Bool.or_eq_true_iff.mp hany with h1 | h1
        · exact absurd (by simpa using h1) hq
        · exact h1

/-- Helper for C10: one dict insertion overrides exactly the inserted
key. -/
theorem dictGet_pyDictInsert (d : List (String × String)) (k' v' k : String) :
    dictGet (pyDictInsert d k' v') k =
      if k = k' then some v' else dictGet d k := by
  by_cases hany : d.any (fun p => p.1 == k') = true
  · rw [pyDictInsert, if_pos hany]
    by_cases hk : k = k'
    · subst hk
      rw [if_pos rfl]
      simp only [dictGet]
      rw [find?_map_eq d k v' hany]
      rfl
    · rw [if_neg hk]
      simp only [dictGet]
      rw [find?_map_ne d k' v' k (Ne.symm hk)]
  · rw [pyDictInsert, if_neg hany]
    by_cases hk : k = k'
    · subst hk
      have hf : List.find? (fun p => p.1 == k) d = none := by
        rw [List.find?_eq_none]
        intro p hp hpk
        apply hany
        rw [List.any_eq_true]
        exact ⟨p, hp, hpk⟩
      simp only [dictGet]
      rw [List.find?_append, hf]
      simp [List.find?]
    · rw [if_neg hk]
      simp only [dictGet]
      rw [List.find?_append]
      have hlast : List.find? (fun p => p.1 == k) [(k', v')] = none := by
        rw [List.find?_cons_of_neg _ (by simp [Ne.symm hk])]
        rfl
      rw [hlast]
      cases List.find? (fun p => p.1 == k) d with
      | none => rfl
      | some p => rfl

/-- Helper for C10: appending one binding makes it the last occurrence. -/
theorem lastVal_append_singleton (l : List (String × String))
    (k' v' k : String) :
    lastVal (l ++ [(k', v')]) k = if k = k' then some v' else lastVal l k := by
  unfold lastVal
  rw [List.reverse_append]
  simp only [List.reverse_cons, List.reverse_nil, List.nil_append,
    List.cons_append]
  by_cases hk : k = k'
  · rw [List.find?_cons_of_pos _ (by simp [hk.symm]), if_pos hk]
    rfl
  · rw [List.find?_cons_of_neg _ (by simp [Ne.symm hk]), if_neg hk]

/-- Helper for C10: a lookup in dict(attrs) is the value of the last
occurrence of the key in the raw attribute list. -/
theorem dictGet_pyDict (l : List (String × String)) (k : String) :
    dictGet (pyDict l) k = lastVal l k := by
  induction l using List.reverseRecOn with
  | nil => rfl
  | append_singleton l p ih =>
      obtain ⟨pk, pv⟩ := p
      rw [show pyDict (l ++ [(pk, pv)]) = pyDictInsert (pyDict l) pk pv from by
            rw [pyDict, pyDict, List.foldl_append]
            rfl]
      rw [dictGet_pyDictInsert, ih, lastVal_append_singleton]

/-- C10: a duplicated attribute name resolves to its last occurrence in
both extractors: every dict lookup sees the last value, the link
extractor step behaves as if only the final href value were present, and
the sample-container test sees only the final class value. -/
theorem claimC10 (attrsL : List (String × String)) (k v : String) :
    dictGet (pyDict attrsL) k = lastVal attrsL k ∧
    (∀ problems,
        contestStep problems (.startTag "a" (attrsL ++ [("href", v)])) =
          contestStep problems (.startTag "a" [("href", v)])) ∧
    (∀ tag, isSampleDiv tag (pyDict (attrsL ++ [("class", v)])) =
        isSampleDiv tag (pyDict [("class", v)])) := by
  refine ⟨dictGet_pyDict attrsL k, ?_, ?_⟩
  · intro problems
    simp only [contestStep]
    rw [dictGet_pyDict, lastVal_append_singleton, if_pos rfl]
    rw [show dictGet (pyDict [("href", v)]) "href" = some v from rfl]
  · intro tag
    simp only [isSampleDiv, dictGetD]
    rw [dictGet_pyDict, lastVal_append_singleton, if_pos rfl]
    rw [show dictGet (pyDict [("class", v)]) "class" = some v from rfl]

end Scraper
